import Mathlib

/-!
Shallow embedding of the experiment-orchestration pipeline of
`lagom/experiment/run_experiment.py`.

The embedded fragments are:
  * job enumeration: `jobs = list(enumerate(product(configs, seeds)))`;
  * the device-allocation logic of the nested `_run` function
    (`torch.cuda.device_count`, the `gpu_ids` assert, round-robin modulo);
  * the body of `_run` around the user run function (device resolution,
    the run call, the conditional `torch.cuda.empty_cache()`), with the
    worker-visible events recorded in a trace;
  * serial dispatch (`[_run(job) for job in jobs]`) and pooled dispatch
    (`ProcessPoolExecutor(max_workers=min(max_workers, len(jobs)))` with
    `executor.map`, whose documented semantics are: results in submission
    order, the first exception re-raised while draining, and the
    constructor rejecting a non-positive worker count);
  * the directory-creation loop that precedes dispatch, as an event trace.

Python exceptions are modelled with `Except`; machine behaviour that the
source relies on (AssertionError from `assert`, ZeroDivisionError from
`% 0`, ValueError from the pool constructor) appears as explicit error
constructors.
-/

namespace Lagom

/-- A compute device: the host CPU or a CUDA device with a given id
(`torch.device('cpu')` / `torch.device(f'cuda:{device_id}')`). -/
inductive Device where
  | cpu : Device
  | cuda (id : Int) : Device
  deriving DecidableEq, Repr

/-- Errors the device-allocation code of `_run` can raise:
`assert all([i >= 0 and i < num_gpu for i in gpu_ids])` raises
AssertionError, and `job_id % num_gpu` / `job_id % len(gpu_ids)` raise
ZeroDivisionError when the modulus is zero. -/
inductive DevErr where
  | assertionError : DevErr
  | zeroDivisionError : DevErr
  deriving DecidableEq, Repr

/-- Device allocation, translated from the body of `_run`
(run_experiment.py lines 110-120):

    if use_gpu:
        num_gpu = torch.cuda.device_count()
        if gpu_ids is None:
            device_id = job_id % num_gpu
        else:
            assert all([i >= 0 and i < num_gpu for i in gpu_ids])
            device_id = gpu_ids[job_id % len(gpu_ids)]
        device = torch.device(f'cuda:{device_id}')
    else:
        device = torch.device('cpu')

`num_gpu` stands for the detected `torch.cuda.device_count()`. Elements of
`gpu_ids` are integers (possibly negative, as the assert anticipates). -/
def deviceFor (use_gpu : Bool) (gpu_ids : Option (List Int)) (num_gpu : Nat)
    (job_id : Nat) : Except DevErr Device :=
  if use_gpu then
    match gpu_ids with
    | none =>
        if num_gpu = 0 then .error .zeroDivisionError
        else .ok (.cuda ((job_id % num_gpu : Nat) : Int))
    | some ids =>
        if ids.all (fun i => 0 ≤ i && i < (num_gpu : Int)) then
          if h : ids.length = 0 then .error .zeroDivisionError
          else .ok (.cuda (ids.get ⟨job_id % ids.length,
            Nat.mod_lt _ (Nat.pos_of_ne_zero h)⟩))
        else .error .assertionError
  else .ok .cpu

/-- Job enumeration, translated from
`jobs = list(enumerate(product(configs, seeds)))`
(run_experiment.py line 100): the Cartesian product is configuration-major
(`itertools.product`), and `enumerate` attaches the zero-based index as the
job id. -/
def enumerateJobs (configs : List κ) (seeds : List σ) : List (Nat × κ × σ) :=
  (configs.flatMap (fun c => seeds.map (fun s => (c, s)))).enum

/-- Worker-visible events inside `_run`: the invocation of the caller's run
function (`result = run(config, seed, device, logdir)`) and the GPU cache
cleanup (`torch.cuda.empty_cache()`). -/
inductive WEvent where
  | runCall (job_id : Nat) : WEvent
  | emptyCache : WEvent
  deriving DecidableEq, Repr

/-- An error escaping `_run`: either one raised by the device-allocation
code, or one raised by the caller's run function. -/
inductive JobErr (ε : Type) where
  | devErr (d : DevErr) : JobErr ε
  | runErr (e : ε) : JobErr ε
  deriving DecidableEq, Repr

/-- The body of `_run` (run_experiment.py lines 102-132) around one job,
with the worker-visible events recorded: resolve the device, invoke the
caller's run function, and - only when the run function returns normally
and `use_gpu` is set - empty the CUDA cache. There is no try/finally in the
source, so an exception from the run function skips the cache cleanup, and
a device-allocation error precedes (and so suppresses) the run call. The
run function is modelled as a pure fallible function of the configuration,
the seed and the device. -/
def runOne (use_gpu : Bool) (gpu_ids : Option (List Int)) (num_gpu : Nat)
    (runf : κ → σ → Device → Except ε ρ) (job : Nat × κ × σ) :
    Except (JobErr ε) ρ × List WEvent :=
  match deviceFor use_gpu gpu_ids num_gpu job.1 with
  | .error d => (.error (.devErr d), [])
  | .ok dev =>
      match runf job.2.1 job.2.2 dev with
      | .error e => (.error (.runErr e), [WEvent.runCall job.1])
      | .ok r =>
          (.ok r, WEvent.runCall job.1 ::
            (if use_gpu then [WEvent.emptyCache] else []))

/-- An error escaping the dispatch step: either the first job error raised
while running or draining jobs, or the ValueError that
`ProcessPoolExecutor` raises when constructed with `max_workers <= 0`. -/
inductive DispatchError (α : Type) where
  | jobError (e : α) : DispatchError α
  | poolValueError : DispatchError α
  deriving DecidableEq, Repr

/-- Serial dispatch, translated from
`results = [_run(job) for job in jobs]` (run_experiment.py line 135):
jobs run one by one in list order; the first exception aborts the
comprehension and propagates. -/
def serialDispatch (g : J → Except α ρ) : List J → Except (DispatchError α) (List ρ)
  | [] => .ok []
  | j :: rest =>
      match g j with
      | .error e => .error (.jobError e)
      | .ok r => (serialDispatch g rest).map (fun rs => r :: rs)

/-- Serial dispatch with the worker-event trace accumulated, for jobs run
through an instrumented runner returning `(result, events)`. The trace
contains the events of every job executed before the abort, in order. -/
def serialDispatchLog (g : J → Except α ρ × List WEvent) :
    List J → Except (DispatchError α) (List ρ) × List WEvent
  | [] => (.ok [], [])
  | j :: rest =>
      match g j with
      | (.error e, tr) => (.error (.jobError e), tr)
      | (.ok r, tr) =>
          let rec2 := serialDispatchLog g rest
          (rec2.1.map (fun rs => r :: rs), tr ++ rec2.2)

/-- The job ids started by serial dispatch, in order: every job up to and
including the first failing one (`[_run(job) for job in jobs]` starts jobs
in list order and stops at the first exception). -/
def startedJobs (g : Nat × κ × σ → Except α ρ) : List (Nat × κ × σ) → List Nat
  | [] => []
  | j :: rest =>
      match g j with
      | .error _ => [j.1]
      | .ok _ => j.1 :: startedJobs g rest

/-- Drained `executor.map` results: the function applied to every job,
results yielded in submission order, with the first raised exception
re-raised while the result list is drained (the documented semantics of
`Executor.map` for a deterministic function; the `chunksize` batching
granularity does not affect the values produced). -/
def poolMap (g : J → Except α ρ) : List J → Except α (List ρ)
  | [] => .ok []
  | j :: rest =>
      match g j with
      | .error e => .error e
      | .ok r =>
          match poolMap g rest with
          | .error e => .error e
          | .ok rs => .ok (r :: rs)

/-- Pooled dispatch, translated from run_experiment.py lines 137-138:

    with ProcessPoolExecutor(max_workers=min(max_workers, len(jobs))) as executor:
        results = list(executor.map(CloudpickleWrapper(_run), jobs, chunksize=chunksize))

The pool constructor raises ValueError when `min(max_workers, len(jobs))`
is not positive; otherwise the drained `executor.map` results are given by
`poolMap`. -/
def pooledDispatch (max_workers : Nat) (g : J → Except α ρ) (jobs : List J) :
    Except (DispatchError α) (List ρ) :=
  if Nat.min max_workers jobs.length = 0 then .error .poolValueError
  else
    match poolMap g jobs with
    | .error e => .error (.jobError e)
    | .ok rs => .ok rs

/-- A configuration as the orchestrator sees it: an ordered record carrying
the reserved integer `ID` field (`config['ID']`) plus its other parameters,
opaque here. -/
structure Config (π : Type) where
  ID : Nat
  params : π
  deriving DecidableEq, Repr

/-- Orchestration-level events of `run_experiment`: creation of one leaf
directory `log_path / ID / seed` (`p.mkdir(parents=True)`) and the start of
one job. -/
inductive Event where
  | mkdir (id : Nat) (seed : Nat) : Event
  | runJob (job_id : Nat) : Event
  deriving DecidableEq, Repr

/-- Whether an event is a directory creation. -/
def Event.isMkdir : Event → Bool
  | .mkdir _ _ => true
  | .runJob _ => false

/-- The directory-creation loop of `run_experiment`
(run_experiment.py lines 91-96), as the ordered list of leaf-directory
creations it performs:

    for config in configs:
        ID = config['ID']
        for seed in seeds:
            p = log_path / f'{ID}' / f'{seed}'
            p.mkdir(parents=True)
-/
def dirEvents (configs : List (Config π)) (seeds : List Nat) : List Event :=
  configs.flatMap (fun c => seeds.map (fun s => Event.mkdir c.ID s))

/-- The event trace of one `run_experiment` call in serial mode: the
directory-creation loop runs to completion, then jobs start one by one
until the first failure. The source puts the loop strictly before
`jobs = list(enumerate(...))` and the dispatch. -/
def experimentTraceSerial (configs : List (Config π)) (seeds : List Nat)
    (g : Nat × Config π × Nat → Except α ρ) : List Event :=
  dirEvents configs seeds ++
    (startedJobs g (enumerateJobs configs seeds)).map Event.runJob

/-- The event trace of one `run_experiment` call in pooled mode: the
directory-creation loop runs to completion before the pool is entered; the
pool then starts jobs in some scheduler-dependent order, given here as the
list `started` of job ids that actually begin. -/
def experimentTracePooled (configs : List (Config π)) (seeds : List Nat)
    (started : List Nat) : List Event :=
  dirEvents configs seeds ++ started.map Event.runJob

/-! Helper lemmas shared by several claims. -/

/-- Length of the configuration-major product list. -/
lemma product_length (configs : List κ) (seeds : List σ) :
    (configs.flatMap (fun c => seeds.map (fun s => (c, s)))).length =
      configs.length * seeds.length := by
  induction configs with
  | nil => simp
  | cons c cs ih => simp [ih, Nat.succ_mul, Nat.add_comm]

/-- Indexing into a flatMap whose blocks all have length `m`: position
`i * m + k` lands at offset `k` of block `i`. -/
lemma flatMap_get?_block (cs : List κ) (f : κ → List β) (m : Nat)
    (hm : ∀ c, (f c).length = m) :
    ∀ i k c, cs.get? i = some c → k < m →
      (cs.flatMap f).get? (i * m + k) = (f c).get? k := by
  induction cs with
  | nil => intro i k c h; simp at h
  | cons c0 cs ih =>
    intro i k c h hk
    cases i with
    | zero =>
      rw [List.get?] at h
      injection h with h; subst h
      rw [List.flatMap_cons, Nat.zero_mul, Nat.zero_add]
      exact List.get?_append (by rw [hm c0]; exact hk)
    | succ i =>
      rw [List.get?] at h
      rw [List.flatMap_cons]
      have heq : (i + 1) * m + k = (f c0).length + (i * m + k) := by
        rw [hm c0]; ring
      rw [heq, List.get?_append_right (Nat.le_add_right _ _),
        Nat.add_sub_cancel_left]
      exact ih i k c h hk

/-- C1. Job enumeration over `configurations` (length n) and `seeds`
(length m) produces exactly `n*m` jobs; the job ids are exactly the
sequential indices `0..n*m-1`; the job at index `i*m + k` is
`(i*m + k, configs[i], seeds[k])` (configuration-major order); and empty
configurations or seeds yield an empty job list. -/
theorem c1_job_enumeration (configs : List κ) (seeds : List σ) :
    (enumerateJobs configs seeds).length = configs.length * seeds.length ∧
    (enumerateJobs configs seeds).map Prod.fst =
      List.range (configs.length * seeds.length) ∧
    (∀ i k c s, configs.get? i = some c → seeds.get? k = some s →
      (enumerateJobs configs seeds).get? (i * seeds.length + k) =
        some (i * seeds.length + k, (c, s))) ∧
    ((configs = [] ∨ seeds = []) → enumerateJobs configs seeds = []) := by
  refine ⟨?_, ?_, ?_, ?_⟩
  · rw [enumerateJobs, List.enum_length, product_length]
  · rw [enumerateJobs, List.enum_map_fst, product_length]
  · intro i k c s hc hs
    have hk : k < seeds.length := by
      rcases List.get?_eq_some.mp hs with ⟨h, -⟩
      exact h
    rw [enumerateJobs, List.get?_enum,
      flatMap_get?_block configs _ seeds.length (fun c => by simp) i k c hc hk,
      List.get?_map, hs]
    rfl
  · rintro (rfl | rfl) <;> simp [enumerateJobs]

/-- C1 witness: concrete evaluation at two configurations and three
seeds, exercising the indexing clause at block 1, offset 2. -/
theorem c1_job_enumeration_witness :
    (enumerateJobs [10, 20] [1, 2, 3]).get? (1 * 3 + 2) = some (5, (20, 3)) :=
  (c1_job_enumeration [10, 20] [1, 2, 3]).2.2.1 1 2 20 3 rfl rfl

/-- C5. With `use_gpu` on and a valid non-empty restricted `gpu_ids`, the
assigned device is `gpu_ids[job_id mod len(gpu_ids)]` - an element of
`gpu_ids` - and the assignment is periodic in `job_id` with period
`len(gpu_ids)`. -/
theorem c5_device_restricted (ids : List Int) (num_gpu job_id : Nat)
    (hne : ids ≠ []) (hrange : ∀ i ∈ ids, 0 ≤ i ∧ i < (num_gpu : Int)) :
    ∃ d, ids.get? (job_id % ids.length) = some d ∧
      deviceFor true (some ids) num_gpu job_id = .ok (.cuda d) ∧ d ∈ ids ∧
      deviceFor true (some ids) num_gpu (job_id + ids.length) =
        deviceFor true (some ids) num_gpu job_id := by
  have hlen : ids.length ≠ 0 := by simpa using hne
  have hall : ids.all (fun i => 0 ≤ i && i < (num_gpu : Int)) = true := by
    rw [List.all_eq_true]
    intro x hx
    have h := hrange x hx
    simp [h.1, h.2]
  have hmod : job_id % ids.length < ids.length :=
    Nat.mod_lt _ (Nat.pos_of_ne_zero hlen)
  refine ⟨ids.get ⟨job_id % ids.length, hmod⟩, List.get?_eq_get hmod, ?_,
    List.get_mem _ _ _, ?_⟩
  · simp [deviceFor, hall, hlen]
  · simp [deviceFor, hall, hlen, Nat.add_mod_right]

/-- C5 witness: gpu_ids = [2,3], 4 detected devices, job 1 gets device 3. -/
theorem c5_device_restricted_witness :
    (([2, 3] : List Int) ≠ [] ∧ (∀ i ∈ ([2, 3] : List Int), 0 ≤ i ∧ i < (4 : Int))) ∧
    deviceFor true (some [2, 3]) 4 1 = .ok (.cuda 3) := by
  refine ⟨⟨by decide, by decide⟩, ?_⟩
  obtain ⟨d, hd, hdev, -, -⟩ :=
    c5_device_restricted [2, 3] 4 1 (by decide) (by decide)
  have hd3 : d = 3 := by simpa using hd.symm
  rw [hdev, hd3]

/-- C6. With `use_gpu` on and `gpu_ids` unset, the assigned device id is
`job_id mod num_gpu` where `num_gpu` is the detected device count. -/
theorem c6_device_roundrobin_all (num_gpu job_id : Nat) (h : 0 < num_gpu) :
    deviceFor true none num_gpu job_id =
      .ok (.cuda ((job_id % num_gpu : Nat) : Int)) := by
  simp [deviceFor, Nat.pos_iff_ne_zero.mp h]

/-- C6 witness: 4 detected devices, job 5 gets device 1 (the last entry of
the documented map [0,1,2,3,0,1] for jobs 0..5). -/
theorem c6_device_roundrobin_all_witness :
    0 < 4 ∧ deviceFor true none 4 5 = .ok (.cuda 1) :=
  ⟨by decide, by simpa using c6_device_roundrobin_all 4 5 (by decide)⟩

/-- C9. With `use_gpu` off, the assigned device is always the host CPU,
for every `gpu_ids` value (None, empty, or out of range) and every job id:
`gpu_ids` is never inspected, so no gpu_ids error can arise in CPU mode. -/
theorem c9_cpu_mode (gpu_ids : Option (List Int)) (num_gpu job_id : Nat) :
    deviceFor false gpu_ids num_gpu job_id = .ok .cpu := rfl

/-- Serial dispatch and the drained pool map agree job by job. -/
lemma serialDispatch_eq_poolMap (g : J → Except α ρ) (jobs : List J) :
    serialDispatch g jobs =
      match poolMap g jobs with
      | .error e => .error (.jobError e)
      | .ok rs => .ok rs := by
  induction jobs with
  | nil => rfl
  | cons j rest ih =>
    rw [serialDispatch, poolMap]
    cases hg : g j with
    | error e => rfl
    | ok r =>
      rw [ih]
      cases poolMap g rest <;> rfl

/-- A successful serial dispatch returns one result per job, the i-th
result being the value of the run on the i-th submitted job. -/
lemma serialDispatch_ok_spec (g : J → Except α ρ) :
    ∀ (jobs : List J) (res : List ρ), serialDispatch g jobs = .ok res →
      res.length = jobs.length ∧
      ∀ i j, jobs.get? i = some j → res.get? i = (g j).toOption := by
  intro jobs
  induction jobs with
  | nil =>
    intro res h
    rw [serialDispatch] at h
    injection h with h
    subst h
    exact ⟨rfl, by intro i j hj; simp at hj⟩
  | cons j0 rest ih =>
    intro res h
    rw [serialDispatch] at h
    cases hg : g j0 with
    | error e => rw [hg] at h; exact absurd h (by simp)
    | ok r =>
      rw [hg] at h
      cases hrest : serialDispatch g rest with
      | error e => rw [hrest] at h; exact absurd h (by simp [Except.map])
      | ok rs =>
        rw [hrest] at h
        have hres : res = r :: rs := by
          simpa [Except.map] using h.symm
        subst hres
        obtain ⟨hlen, hidx⟩ := ih rs hrest
        refine ⟨by simp [hlen], ?_⟩
        intro i j hj
        cases i with
        | zero =>
          rw [List.get?] at hj
          injection hj with hj
          subst hj
          simp [List.get?, hg, Except.toOption]
        | succ i =>
          rw [List.get?] at hj
          exact hidx i j hj

/-- C2 counterexample: over the empty job list (empty configurations or
seeds) with a deterministic run function, pooled dispatch with
`max_workers = 2` does not return the serial result: the pool is
constructed with `min(2, 0) = 0` workers and raises ValueError, while
serial dispatch returns the empty result list. -/
theorem c2_counterexample :
    pooledDispatch 2 (fun j => (Except.ok j.1 : Except Unit Nat))
        ([] : List (Nat × Nat × Nat)) ≠
      serialDispatch (fun j => (Except.ok j.1 : Except Unit Nat))
        ([] : List (Nat × Nat × Nat)) := by
  simp [pooledDispatch, serialDispatch]

/-- C2 (amended). For every nonempty job list, every positive
`max_workers` and every deterministic run function, pooled dispatch
returns exactly the serial-dispatch result; and in both modes a successful
dispatch yields one result per job with the i-th result equal to the run
value of the i-th submitted job (submission order, regardless of
completion order). -/
theorem c2_serial_pooled_equiv (g : J → Except α ρ) (jobs : List J)
    (max_workers : Nat) (hne : jobs ≠ []) (hmw : 0 < max_workers) :
    pooledDispatch max_workers g jobs = serialDispatch g jobs ∧
    (∀ res, serialDispatch g jobs = .ok res →
      res.length = jobs.length ∧
      ∀ i j, jobs.get? i = some j → res.get? i = (g j).toOption) := by
  constructor
  · have hlen : jobs.length ≠ 0 := by simpa using hne
    rw [serialDispatch_eq_poolMap, pooledDispatch,
      if_neg (by rw [Nat.min_eq_zero_iff]; omega)]
  · exact fun res h => serialDispatch_ok_spec g jobs res h

/-- C2 witness: two jobs, `max_workers = 2`, a deterministic run function;
both modes return `[10, 20]` and the i-th result belongs to job i. -/
theorem c2_serial_pooled_equiv_witness :
    ([((0 : Nat), (10 : Nat), (1 : Nat)), (1, 20, 2)] ≠ [] ∧ 0 < 2) ∧
    pooledDispatch 2 (fun j => (Except.ok j.2.1 : Except Unit Nat))
        [((0 : Nat), (10 : Nat), (1 : Nat)), (1, 20, 2)] =
      serialDispatch (fun j => (Except.ok j.2.1 : Except Unit Nat))
        [((0 : Nat), (10 : Nat), (1 : Nat)), (1, 20, 2)] := by
  refine ⟨⟨by simp, by decide⟩, ?_⟩
  exact (c2_serial_pooled_equiv _ _ 2 (by simp) (by decide)).1

/-- C8. When the job list is empty (empty configurations or empty seeds),
pooled dispatch with an integer `max_workers` constructs the pool with
`min(max_workers, 0) = 0` workers and fails with ValueError instead of
returning the empty result list, while serial dispatch
(`max_workers=None`) on the same inputs returns the empty list. -/
theorem c8_pool_rejects_empty_jobs (configs : List κ) (seeds : List σ)
    (max_workers : Nat) (g : Nat × κ × σ → Except α ρ)
    (h : configs = [] ∨ seeds = []) :
    pooledDispatch max_workers g (enumerateJobs configs seeds) =
      .error .poolValueError ∧
    serialDispatch g (enumerateJobs configs seeds) = .ok [] := by
  have hempty : enumerateJobs configs seeds = [] := by
    rcases h with rfl | rfl <;> simp [enumerateJobs]
  rw [hempty]
  exact ⟨by simp [pooledDispatch], rfl⟩

/-- C8 witness: empty configuration list, one seed, `max_workers = 2`. -/
theorem c8_pool_rejects_empty_jobs_witness :
    (([] : List Nat) = [] ∨ ([5] : List Nat) = []) ∧
    pooledDispatch 2 (fun j => (Except.ok j.1 : Except Unit Nat))
        (enumerateJobs ([] : List Nat) [5]) = .error .poolValueError :=
  ⟨Or.inl rfl,
    (c8_pool_rejects_empty_jobs ([] : List Nat) [5] 2 _ (Or.inl rfl)).1⟩

/-- Serial dispatch with a first failure at index `t` runs exactly the
jobs up to and including index `t` (in order) and propagates the error. -/
lemma serialDispatch_fail_fast (g : Nat × κ × σ → Except α ρ) :
    ∀ (l : List (Nat × κ × σ)) (t : Nat) (e : α) (j : Nat × κ × σ),
      l.get? t = some j → g j = .error e →
      (∀ i ji, i < t → l.get? i = some ji → ∃ r, g ji = .ok r) →
      serialDispatch g l = .error (.jobError e) ∧
      startedJobs g l = (l.take (t + 1)).map Prod.fst := by
  intro l
  induction l with
  | nil => intro t e j hj; simp at hj
  | cons j0 rest ih =>
    intro t e j hj hge hok
    cases t with
    | zero =>
      rw [List.get?] at hj
      injection hj with hj
      subst hj
      rw [serialDispatch, startedJobs, hge]
      exact ⟨rfl, rfl⟩
    | succ t =>
      rw [List.get?] at hj
      obtain ⟨r0, hr0⟩ := hok 0 j0 (Nat.succ_pos t) rfl
      have hok_rest : ∀ i ji, i < t → rest.get? i = some ji →
          ∃ r, g ji = .ok r := by
        intro i ji hi hji
        exact hok (i + 1) ji (by omega) (by rw [List.get?]; exact hji)
      obtain ⟨hser, hstart⟩ := ih t e j hj hge hok_rest
      rw [serialDispatch, startedJobs, hr0, hser, hstart]
      exact ⟨rfl, by rw [List.take, List.map_cons]⟩

/-- C7. In serial mode jobs execute one by one in enumeration (job id)
order: if the caller's run function raises on the job at index `t` while
every earlier job succeeds, the exception propagates synchronously (the
dispatch returns that error, with no partial-results return) and the jobs
started are exactly those with job ids `0..t` - no job with a larger job
id is ever started. -/
theorem c7_serial_fail_fast (use_gpu : Bool) (gpu_ids : Option (List Int))
    (num_gpu : Nat) (runf : κ → σ → Device → Except ε ρ)
    (configs : List κ) (seeds : List σ) (t : Nat) (e : ε) (j : Nat × κ × σ)
    (hj : (enumerateJobs configs seeds).get? t = some j)
    (herr : (runOne use_gpu gpu_ids num_gpu runf j).1 = .error (.runErr e))
    (hok : ∀ i ji, i < t → (enumerateJobs configs seeds).get? i = some ji →
      ∃ r, (runOne use_gpu gpu_ids num_gpu runf ji).1 = .ok r) :
    serialDispatch (fun job => (runOne use_gpu gpu_ids num_gpu runf job).1)
        (enumerateJobs configs seeds) = .error (.jobError (.runErr e)) ∧
    startedJobs (fun job => (runOne use_gpu gpu_ids num_gpu runf job).1)
        (enumerateJobs configs seeds) = List.range (t + 1) := by
  obtain ⟨hser, hstart⟩ :=
    serialDispatch_fail_fast (fun job => (runOne use_gpu gpu_ids num_gpu runf job).1)
      (enumerateJobs configs seeds) t (.runErr e) j hj herr hok
  refine ⟨hser, ?_⟩
  rw [hstart]
  have ht : t < (enumerateJobs configs seeds).length :=
    (List.get?_eq_some.mp hj).1
  rw [enumerateJobs, List.map_take, List.enum_map_fst, List.take_range,
    Nat.min_eq_left (by rw [enumerateJobs, List.enum_length] at ht; omega)]

/-- C7 witness: two configurations, seeds [1,2,3], and a run function that
raises on seed 2 - the serial dispatch propagates the error of job 1 and
starts exactly jobs 0 and 1, never the successor jobs 2..5. -/
theorem c7_serial_fail_fast_witness :
    ((enumerateJobs [(10 : Nat), 20] [(1 : Nat), 2, 3]).get? 1 =
        some (1, 10, 2)) ∧
    serialDispatch
        (fun job => (runOne false none 0
          (fun (c : Nat) (s : Nat) (_ : Device) =>
            if s = 2 then (Except.error 7 : Except Nat Nat) else .ok (c + s))
          job).1)
        (enumerateJobs [(10 : Nat), 20] [(1 : Nat), 2, 3]) =
      .error (.jobError (.runErr 7)) ∧
    startedJobs
        (fun job => (runOne false none 0
          (fun (c : Nat) (s : Nat) (_ : Device) =>
            if s = 2 then (Except.error 7 : Except Nat Nat) else .ok (c + s))
          job).1)
        (enumerateJobs [(10 : Nat), 20] [(1 : Nat), 2, 3]) = [0, 1] := by
  refine ⟨rfl, ?_⟩
  have h := c7_serial_fail_fast false none 0
    (fun (c : Nat) (s : Nat) (_ : Device) =>
      if s = 2 then (Except.error 7 : Except Nat Nat) else .ok (c + s))
    [(10 : Nat), 20] [(1 : Nat), 2, 3] 1 7 (1, 10, 2) rfl rfl ?_
  · exact ⟨h.1, by rw [h.2]; rfl⟩
  · intro i ji hi hji
    have hi0 : i = 0 := by omega
    subst hi0
    rw [show (enumerateJobs [(10 : Nat), 20] [(1 : Nat), 2, 3]).get? 0 =
      some (0, 10, 1) from rfl] at hji
    injection hji with hji
    subst hji
    exact ⟨11, rfl⟩

/-- Malformed `gpu_ids` (an entry negative or at least the detected device
count) makes the assert of `_run` fail, for every job id. -/
lemma deviceFor_invalid (ids : List Int) (num_gpu : Nat)
    (hbad : ∃ i ∈ ids, i < 0 ∨ (num_gpu : Int) ≤ i) (job_id : Nat) :
    deviceFor true (some ids) num_gpu job_id = .error .assertionError := by
  obtain ⟨i, hi, hv⟩ := hbad
  have hall : ids.all (fun i => 0 ≤ i && i < (num_gpu : Int)) = false := by
    by_contra h
    rw [Bool.not_eq_false, List.all_eq_true] at h
    have hh := h i hi
    simp only [Bool.and_eq_true, decide_eq_true_eq] at hh
    omega
  simp [deviceFor, hall]

/-- With malformed `gpu_ids`, `_run` fails at the assert before invoking
the caller's run function: no run call, no events, for every run function
and every job. -/
lemma runOne_invalid (ids : List Int) (num_gpu : Nat)
    (hbad : ∃ i ∈ ids, i < 0 ∨ (num_gpu : Int) ≤ i)
    (runf : κ → σ → Device → Except ε ρ) (job : Nat × κ × σ) :
    runOne true (some ids) num_gpu runf job =
      (.error (.devErr .assertionError), []) := by
  rw [runOne, deviceFor_invalid ids num_gpu hbad]

/-- C3. With `use_gpu` on and a `gpu_ids` entry negative or at least the
detected device count, orchestration fails fast: serial dispatch raises
the assertion error at the first job with an empty worker-event trace (the
caller's run function is never invoked), pooled dispatch propagates the
same assertion error, and no job in either mode produces any run-call
event. -/
theorem c3_invalid_gpu_ids_fail_fast (ids : List Int) (num_gpu : Nat)
    (hbad : ∃ i ∈ ids, i < 0 ∨ (num_gpu : Int) ≤ i)
    (runf : κ → σ → Device → Except ε ρ) (configs : List κ) (seeds : List σ)
    (hne : enumerateJobs configs seeds ≠ []) (max_workers : Nat)
    (hmw : 0 < max_workers) :
    serialDispatchLog (runOne true (some ids) num_gpu runf)
        (enumerateJobs configs seeds) =
      (.error (.jobError (.devErr .assertionError)), []) ∧
    pooledDispatch max_workers
        (fun job => (runOne true (some ids) num_gpu runf job).1)
        (enumerateJobs configs seeds) =
      .error (.jobError (.devErr .assertionError)) ∧
    (∀ job, (runOne true (some ids) num_gpu runf job).2 = []) := by
  obtain ⟨j0, rest, hjobs⟩ := List.exists_cons_of_ne_nil hne
  refine ⟨?_, ?_, fun job => by rw [runOne_invalid ids num_gpu hbad]⟩
  · rw [hjobs, serialDispatchLog, runOne_invalid ids num_gpu hbad]
  · rw [hjobs, pooledDispatch, if_neg (by rw [Nat.min_eq_zero_iff]; simp; omega)]
    rw [poolMap]
    simp only [runOne_invalid ids num_gpu hbad]

/-- C3 witness: gpu_ids = [5] with 4 detected devices, one job; serial
dispatch fails with the assertion error and an empty event trace. -/
theorem c3_invalid_gpu_ids_fail_fast_witness :
    ((∃ i ∈ ([5] : List Int), i < 0 ∨ (4 : Int) ≤ i) ∧
      enumerateJobs [(10 : Nat)] [(1 : Nat)] ≠ [] ∧ 0 < 2) ∧
    serialDispatchLog
        (runOne true (some [5]) 4
          (fun (c : Nat) (s : Nat) (_ : Device) =>
            (Except.ok (c + s) : Except Unit Nat)))
        (enumerateJobs [(10 : Nat)] [(1 : Nat)]) =
      (.error (.jobError (.devErr .assertionError)), []) := by
  refine ⟨⟨⟨5, by decide, Or.inr (by decide)⟩, by decide, by decide⟩, ?_⟩
  exact (c3_invalid_gpu_ids_fail_fast [5] 4 ⟨5, by decide, Or.inr (by decide)⟩
    _ [(10 : Nat)] [(1 : Nat)] (by decide) 2 (by decide)).1

/-- C10. With the device resolved, the cache-cleanup event occurs exactly
when `use_gpu` is set and the run function returns normally: on normal
return the worker trace is the run call followed by `emptyCache` precisely
when `use_gpu` is set, and when the run function raises, the exception
propagates and the trace is the bare run call - the cleanup is skipped
entirely (no try/finally around the run invocation). -/
theorem c10_cleanup_exactly_on_normal_gpu_return (use_gpu : Bool)
    (gpu_ids : Option (List Int)) (num_gpu : Nat)
    (runf : κ → σ → Device → Except ε ρ) (jid : Nat) (c : κ) (s : σ)
    (dev : Device)
    (hdev : deviceFor use_gpu gpu_ids num_gpu jid = .ok dev) :
    (∀ r, runf c s dev = .ok r →
      (runOne use_gpu gpu_ids num_gpu runf (jid, c, s)).1 = .ok r ∧
      (runOne use_gpu gpu_ids num_gpu runf (jid, c, s)).2 =
        WEvent.runCall jid ::
          (if use_gpu then [WEvent.emptyCache] else [])) ∧
    (∀ e, runf c s dev = .error e →
      (runOne use_gpu gpu_ids num_gpu runf (jid, c, s)).1 =
        .error (.runErr e) ∧
      (runOne use_gpu gpu_ids num_gpu runf (jid, c, s)).2 =
        [WEvent.runCall jid]) := by
  constructor
  · intro r hr
    rw [runOne]
    simp [hdev, hr]
  · intro e he
    rw [runOne]
    simp [hdev, he]

/-- C10 witness: on GPU with device cuda 3, a normal return is followed by
the cache cleanup, while a raising run function yields only the run call
and propagates its error. -/
theorem c10_cleanup_exactly_on_normal_gpu_return_witness :
    (deviceFor true (some [2, 3]) 4 1 = .ok (.cuda 3)) ∧
    (runOne true (some [2, 3]) 4
        (fun (c : Nat) (s : Nat) (_ : Device) =>
          (Except.ok (c + s) : Except Nat Nat)) (1, 10, 2)).2 =
      [WEvent.runCall 1, WEvent.emptyCache] ∧
    (runOne true (some [2, 3]) 4
        (fun (_ : Nat) (_ : Nat) (_ : Device) =>
          (Except.error 9 : Except Nat Nat)) (1, 10, 2)).2 =
      [WEvent.runCall 1] := by
  refine ⟨rfl, ?_, ?_⟩
  · have h := (c10_cleanup_exactly_on_normal_gpu_return true (some [2, 3]) 4
      (fun (c : Nat) (s : Nat) (_ : Device) =>
        (Except.ok (c + s) : Except Nat Nat)) 1 10 2 (.cuda 3) rfl).1
      12 rfl
    rw [h.2]
    rfl
  · exact ((c10_cleanup_exactly_on_normal_gpu_return true (some [2, 3]) 4
      (fun (_ : Nat) (_ : Nat) (_ : Device) =>
        (Except.error 9 : Except Nat Nat)) 1 10 2 (.cuda 3) rfl).2
      9 rfl).2

/-- Every event of the directory-creation loop is a mkdir. -/
lemma dirEvents_isMkdir (configs : List (Config π)) (seeds : List Nat) :
    ∀ e ∈ dirEvents configs seeds, e.isMkdir = true := by
  intro e he
  rcases List.mem_flatMap.mp he with ⟨c, -, hc⟩
  rcases List.mem_map.mp hc with ⟨s, -, rfl⟩
  rfl

/-- No job-start event is a mkdir. -/
lemma runJob_not_isMkdir (l : List Nat) :
    ∀ e ∈ l.map Event.runJob, e.isMkdir = false := by
  intro e he
  rcases List.mem_map.mp he with ⟨n, -, rfl⟩
  rfl

/-- In a trace whose first segment is all mkdir events and whose second
segment has none, every mkdir position precedes every non-mkdir position. -/
lemma mkdir_before_run (l₁ l₂ : List Event)
    (h₁ : ∀ e ∈ l₁, e.isMkdir = true) (h₂ : ∀ e ∈ l₂, e.isMkdir = false) :
    ∀ i j ei ej, (l₁ ++ l₂).get? i = some ei → (l₁ ++ l₂).get? j = some ej →
      ei.isMkdir = true → ej.isMkdir = false → i < j := by
  intro i j ei ej hi hj hmi hmj
  have hi' : i < l₁.length := by
    by_contra h
    push_neg at h
    rw [List.get?_append_right h] at hi
    rw [h₂ ei (List.get?_mem hi)] at hmi
    exact absurd hmi (by simp)
  have hj' : l₁.length ≤ j := by
    by_contra h
    push_neg at h
    rw [List.get?_append h] at hj
    rw [h₁ ej (List.get?_mem hj)] at hmj
    exact absurd hmj (by simp)
  omega

/-- C4. Every leaf directory `root/<config_id>/<seed>` is created before
the first job starts, in both serial and pooled mode: the trace of one
`run_experiment` call contains a mkdir event for every (configuration,
seed) pair, and every mkdir event precedes every job-start event - a full
barrier, for every run function outcome (serial) and every
scheduler-dependent start order (pooled). -/
theorem c4_dirs_before_any_job (configs : List (Config π)) (seeds : List Nat)
    (g : Nat × Config π × Nat → Except α ρ) (started : List Nat) :
    (∀ c ∈ configs, ∀ s ∈ seeds,
      Event.mkdir c.ID s ∈ experimentTraceSerial configs seeds g ∧
      Event.mkdir c.ID s ∈ experimentTracePooled configs seeds started) ∧
    (∀ i j ei ej,
      (experimentTraceSerial configs seeds g).get? i = some ei →
      (experimentTraceSerial configs seeds g).get? j = some ej →
      ei.isMkdir = true → ej.isMkdir = false → i < j) ∧
    (∀ i j ei ej,
      (experimentTracePooled configs seeds started).get? i = some ei →
      (experimentTracePooled configs seeds started).get? j = some ej →
      ei.isMkdir = true → ej.isMkdir = false → i < j) := by
  refine ⟨?_, ?_, ?_⟩
  · intro c hc s hs
    have hmem : Event.mkdir c.ID s ∈ dirEvents configs seeds :=
      List.mem_flatMap.mpr ⟨c, hc, List.mem_map.mpr ⟨s, hs, rfl⟩⟩
    exact ⟨List.mem_append_left _ hmem, List.mem_append_left _ hmem⟩
  · exact mkdir_before_run _ _ (dirEvents_isMkdir configs seeds)
      (runJob_not_isMkdir _)
  · exact mkdir_before_run _ _ (dirEvents_isMkdir configs seeds)
      (runJob_not_isMkdir _)

/-- C4 witness: two configurations and two seeds; the leaf directory of
configuration 1, seed 2 is present in both the serial trace and a pooled
trace with an out-of-order start schedule. -/
theorem c4_dirs_before_any_job_witness :
    Event.mkdir 1 2 ∈ experimentTraceSerial
        [(⟨0, ()⟩ : Config Unit), ⟨1, ()⟩] [1, 2]
        (fun job => (Except.ok job.1 : Except Unit Nat)) ∧
    Event.mkdir 1 2 ∈ experimentTracePooled
        [(⟨0, ()⟩ : Config Unit), ⟨1, ()⟩] [1, 2] [3, 0, 1, 2] :=
  (c4_dirs_before_any_job [(⟨0, ()⟩ : Config Unit), ⟨1, ()⟩] [1, 2]
      (fun job => (Except.ok job.1 : Except Unit Nat)) [3, 0, 1, 2]).1
    ⟨1, ()⟩ (by decide) 2 (by decide)

end Lagom
